import Mathlib

/-
Verification of the plant-assistant backend's agent core against its
natural-language specification.

The development shallowly embeds the Python source of
`src/backend/src/chat` (diagnosis_context_service.py, context_service.py,
agent.py, tools.py) into Lean:

* Python dictionaries whose key sets are fixed by the code are embedded as
  structures; `dict.get(k, default)` on a key the code may omit becomes an
  `Option` field.
* Python floats (`0.1`-step recency arithmetic, similarity scores) are
  embedded as exact rationals `ℚ`; every numeric fact proved here is
  insensitive to the float/rational distinction at the inputs considered.
* Python `set(xs)` iteration order is hash-dependent and unspecified, so a
  construct such as `max(set(xs), key=xs.count)` is embedded as a function
  of an extra argument `σ` ranged over all orderings of the distinct
  elements of `xs` (predicate `SetOrder σ xs`).
* `try/except` around an external call is embedded by passing the call's
  outcome as an `Except` value and translating the handler branches.
-/

namespace PlantAssistant

/-! ## Python list primitives -/

/-- Python's `max(iterable, key=key)` over a non-empty iteration sequence:
the FIRST element of the sequence attaining the maximal key (Python only
replaces the current maximum on a strictly greater key). -/
def pyMax1 (key : α → Nat) (a : α) (l : List α) : α :=
  l.foldl (fun acc x => if key acc < key x then x else acc) a

/-- Python's `max(iterable, key=key)`, `none` on an empty sequence. -/
def pyMax (key : α → Nat) : List α → Option α
  | [] => none
  | a :: l => some (pyMax1 key a l)

/-- Python's `list(dict.fromkeys(xs))`: order-preserving first-seen
de-duplication (`dict` preserves insertion order and `fromkeys` keeps the
first occurrence of each key). -/
def firstSeenDedup [DecidableEq α] : List α → List α
  | [] => []
  | a :: l => a :: (firstSeenDedup l).filter (fun x => x ≠ a)

/-- An ordering of `set(xs)`: a list holding each distinct element of `xs`
exactly once. Python's set iteration order is hash-dependent, so the
source code determines the result of iterating `set(xs)` only up to such
an ordering. -/
def SetOrder [DecidableEq α] (σ xs : List α) : Prop :=
  σ.Nodup ∧ (∀ a ∈ σ, a ∈ xs) ∧ ∀ a ∈ xs, a ∈ σ

instance [DecidableEq α] (σ xs : List α) : Decidable (SetOrder σ xs) := by
  unfold SetOrder; infer_instance

/-! ## DiagnosisAggregator
(`PlantDiagnosisContextService.aggregate_diagnosis_context`,
`src/backend/src/chat/services/diagnosis_context_service.py`). -/

/-- One similar-case candidate, as built by `query_diagnosis_context`
(every key is set there, so fields are total): `score` is the Pinecone
similarity score, `confidence` the stored per-case confidence. -/
structure DiagnosisCandidate where
  score : ℚ
  plant_name : String
  condition : String
  symptoms : List String
  treatment : List String
  confidence : ℚ
  image_description : String
  similar_cases : Nat
deriving DecidableEq, Inhabited

/-- The dictionary returned by `aggregate_diagnosis_context`.
`context_sources` is present only in the non-empty branch of the code,
hence an `Option`. -/
structure AggregatedDiagnosis where
  plant_name : String
  condition : String
  confidence : ℚ
  treatments : List String
  similar_cases_count : Nat
  context_sources : Option (List DiagnosisCandidate)
deriving DecidableEq

/-- Embedding of `aggregate_diagnosis_context(context_results)`.

`σp` embeds the iteration order of `set(plant_names)` and `σc` that of
`set(conditions)` (see `SetOrder`); the Python expression
`max(set(xs), key=xs.count)` becomes `pyMax (xs.count ·) σ`.

Faithfulness notes: candidates built by `query_diagnosis_context` always
carry every key, so `ctx.get("plant_name", "Unknown")` is the field
itself, the condition comprehension is a filter-then-project, and the
`isinstance(treatments, list)` branch is the one taken (`treatment` is
always a list here). `pyMax` returns `none` only on an empty `σ`, which
`SetOrder` excludes for non-empty input; `getD` supplies an arbitrary
default for that dead branch. -/
def aggregate_diagnosis_context (σp σc : List String)
    (context_results : List DiagnosisCandidate) : AggregatedDiagnosis :=
  if context_results = [] then
    { plant_name := "Unknown"
      condition := "Unable to determine"
      confidence := 0
      treatments := []
      similar_cases_count := 0
      context_sources := none }
  else
    let plant_names := context_results.map (·.plant_name)
    let most_common_plant := (pyMax (fun s => plant_names.count s) σp).getD "Unknown"
    let conditions :=
      (context_results.filter (fun c => c.condition ≠ "Unknown")).map (·.condition)
    let most_likely_condition :=
      if conditions = [] then "Healthy"
      else (pyMax (fun s => conditions.count s) σc).getD "Healthy"
    let all_treatments := context_results.flatMap (·.treatment)
    let unique_treatments := firstSeenDedup all_treatments
    let total_confidence := (context_results.map (·.score)).sum
    let average_confidence := total_confidence / context_results.length
    { plant_name := most_common_plant
      condition := most_likely_condition
      confidence := average_confidence
      treatments := unique_treatments.take 5
      similar_cases_count := context_results.length
      context_sources := some context_results }

/-- Modelled from the spec: the statistical mode with ties broken by
first-seen order, as the specification's words describe `plant_name`.
Used only to compare the specified tie-break against the code's. -/
def specFirstSeenMode (xs : List String) : Option String :=
  pyMax (fun s => xs.count s) (firstSeenDedup xs)

/-! ## ContextRetrievalService
(`UserContextService.retrieve_user_context`,
`src/backend/src/chat/services/context_service.py`). The Pinecone query
(`src/backend/src/database/pinecone.py`, `query_vector`) forwards the
filter to the external Pinecone client and returns its `matches`; the
client's contract is that at most `top_k` matches come back, with no
further guarantee about WHICH of the filtered records are chosen when the
query vector is the dummy zero vector. The embedding therefore takes the
match list itself as the input of `retrieve_user_context`; theorems put
the `≤ top_k` client contract in a hypothesis. -/

/-- A Pinecone match's metadata as read by `retrieve_user_context`.
The code derives the recency from `metadata["timestamp"]` via
`datetime.fromisoformat` and `(now - timestamp).days`; the embedding
carries that integer day difference directly: `daysAgo = none` stands for
a missing ("") or unparseable timestamp string (the `except` branch), and
`daysAgo = some d` for a parseable one lying `d` whole days in the past
(negative for future timestamps, as Python's `timedelta.days` is). -/
structure PineconeMatch where
  daysAgo : Option Int
  conversation_id : String
  summary : String
  message_count : Nat
  has_images : Bool
deriving DecidableEq, Inhabited

/-- One entry of the list `retrieve_user_context` returns (the keys of
the dictionary built in the loop that the claims are about). -/
structure ContextEntry where
  relevance_score : ℚ
  conversation_id : String
  daysAgo : Option Int
  summary : String
  message_count : Nat
  has_images : Bool
deriving DecidableEq, Inhabited

/-- The recency formula `max(0.1, 1.0 - (days_ago * 0.1))`. -/
def recencyScore (days_ago : Int) : ℚ :=
  max (1/10) (1 - days_ago * (1/10))

/-- The per-match scoring: the recency formula on a parseable timestamp,
the fixed default `0.5` on a missing or unparseable one. -/
def matchScore (m : PineconeMatch) : ℚ :=
  match m.daysAgo with
  | some d => recencyScore d
  | none => 1/2

/-- The dictionary appended to `context_results` for one match. -/
def mkContextEntry (m : PineconeMatch) : ContextEntry :=
  { relevance_score := matchScore m
    conversation_id := m.conversation_id
    daysAgo := m.daysAgo
    summary := m.summary
    message_count := m.message_count
    has_images := m.has_images }

/-- Stable descending insertion into a sorted list: the new element goes
before the first strictly smaller score, after every earlier element of
equal or larger score. -/
def insertDesc (e : ContextEntry) : List ContextEntry → List ContextEntry
  | [] => [e]
  | a :: l =>
    if a.relevance_score ≤ e.relevance_score then e :: a :: l
    else a :: insertDesc e l

/-- Python's `list.sort(key=lambda x: x.relevance_score, reverse=True)`:
the stable sort placing higher scores first. A stable sort is uniquely
determined as a function by its key ordering, so Python's timsort is
embedded as stable insertion sort. -/
def sortByScoreDesc : List ContextEntry → List ContextEntry
  | [] => []
  | e :: l => insertDesc e (sortByScoreDesc l)

/-- Embedding of `retrieve_user_context` in its filter-only mode, as a
function of the match list the Pinecone client returned for the
`user_id`/`conversation_id` filter: score every match, then sort
descending by score. No match is dropped (the code explicitly applies no
relevance threshold). -/
def retrieve_user_context (ms : List PineconeMatch) : List ContextEntry :=
  sortByScoreDesc (ms.map mkContextEntry)

/-! ## ConversationEngine (`PlantAssistantAgent`, `src/backend/src/chat/agent.py`). -/

/-- Message roles (`SystemMessage` / `HumanMessage` / `AIMessage` / tool
messages of langchain). -/
inductive Role where
  | system
  | user
  | assistant
  | tool
deriving DecidableEq, Inhabited

/-- A langchain message as the agent code consumes it: a role, a text
content, and the structured tool-call requests an assistant message may
carry (`response.tool_calls`). -/
structure Msg where
  role : Role
  content : String
  tool_calls : List String := []
deriving DecidableEq, Inhabited

/-- The fixed apologetic assistant text appended by the `except` branch of
`_chat_with_tools`. -/
def chatNodeApology : String :=
  "I apologize, but I encountered an error. Please try again."

/-- The fixed apologetic text returned by the `except` branch of
`process_message`. -/
def processMessageApology : String :=
  "I apologize, but I encountered an error processing your message. Please try again."

/-- The derived user profile dictionary built by `_load_user_context`
(agent.py): defaults are `"beginner"` experience, empty history. (The
reduced fallback dictionary of the guard-failure branch is embedded with
the same structure, its absent keys as the defaults.) -/
structure UserProfile where
  user_id : Option Int := none
  plants_discussed : List String := []
  experience_level : String := "beginner"
  preferences : String := ""
  common_issues : String := ""
  environment : String := ""
  goals : String := ""
deriving DecidableEq, Inhabited

/-- The slice of `ConversationState` (`src/backend/src/chat/state.py`)
the verified nodes read and write. `user_id` is `Option Int`: the source
field is dynamically typed and `_load_user_context` demands
`isinstance(user_id, int)` on the aggregation path, so `some u` embeds a
truthy int and `none` every other value. -/
structure AgentState where
  messages : List Msg
  user_id : Option Int
  conversation_id : Option String
  user_context : Option UserProfile := none
  image_data : Option String := none
  error : Option String := none
deriving DecidableEq, Inhabited

/-- Embedding of the `_chat_with_tools` node. The body's externals (the
global-state hand-off to tools and the LLM call) are summarised by the
`llmResult` argument: `Except.ok r` is the response of
`self.llm_with_tools.ainvoke(messages)`, `Except.error e` any exception
raised inside the `try` block. On success the node appends the response
(after prepending a system prompt when none is present); the `except`
branch records the error on the state and appends the fixed apologetic
assistant message to the ORIGINAL message list (the local system-prompt
prepend is not written back there). -/
def chat_with_tools (systemPrompt : String) (state : AgentState)
    (llmResult : Except String Msg) : AgentState :=
  match llmResult with
  | Except.ok response =>
      let messages :=
        if state.messages.any (fun m => decide (m.role = Role.system)) then
          state.messages
        else
          { role := Role.system, content := systemPrompt, tool_calls := [] } :: state.messages
      { state with messages := messages ++ [response] }
  | Except.error e =>
      { state with
          error := some e
          messages := state.messages ++
            [{ role := Role.assistant, content := chatNodeApology, tool_calls := [] }] }

/-- The dictionary `process_message` returns. -/
structure ProcessResult where
  response : String
  conversation_id : Option String := none
  input_tokens : Nat := 0
  output_tokens : Nat := 0
  error : Option String := none
deriving DecidableEq, Inhabited

/-- Embedding of `PlantAssistantAgent.process_message`. The compiled
workflow invocation `self.app.ainvoke(initial_state, config)` is
summarised by the `workflow` argument: `Except.ok final` a normal
completion, `Except.error e` any exception escaping the graph run. On
success the last assistant message becomes the response (or a canned
apology when none exists); the `except` branch returns the typed failure
dictionary — the function is total, so no exception ever reaches the
caller. -/
def process_message (workflow : AgentState → Except String AgentState)
    (initial : AgentState) : ProcessResult :=
  match workflow initial with
  | Except.ok final =>
      let lastAI := (final.messages.filter (fun m => decide (m.role = Role.assistant))).getLast?
      { response :=
          match lastAI with
          | some m => m.content
          | none => "I apologize, but I couldn't generate a proper response."
        conversation_id := final.conversation_id
        input_tokens := 0
        output_tokens := 0
        error := final.error }
  | Except.error e =>
      { response := processMessageApology
        conversation_id := none
        input_tokens := 0
        output_tokens := 0
        error := some e }

/-! ## Context injection (`_retrieve_relevant_context`, agent.py). -/

/-- Exact-rational rendering of one retrieved entry's line
`"[Relevance: {score:.2f}] {summary}"` (the two-decimal float rendering is
abstracted to the exact rational's rendering; no claim depends on the
digits). -/
def formatCtxLine (e : ContextEntry) : String :=
  "[Relevance: " ++ toString e.relevance_score ++ "] " ++ e.summary

/-- The synthetic system-message text built around the joined top-3
summary lines (decorative emoji of the source omitted). -/
def contextMessage (lines : List String) : String :=
  "IMPORTANT: RETRIEVED CONTEXT FROM PREVIOUS CONVERSATIONS\n\n" ++
  "The following context contains information from your previous plant care discussions:\n\n" ++
  String.intercalate "\n" lines ++
  "\n\nCRITICAL: Use this context to inform your response. If this context contains recent information about the same plant the user is asking about, provide a direct response that references and builds upon this previous discussion. Only use diagnosis tools if you need NEW information not already available in this context.\n\nIf the user is asking a follow-up question about a plant mentioned in the context above, acknowledge the previous conversation and provide continuity."

/-- The synthetic system message injected for a retrieval result:
role `system`, content built from the first three non-empty summary
lines. -/
def injectedMsg (results : List ContextEntry) : Msg :=
  { role := Role.system
    content := contextMessage
      (((results.filter (fun e => e.summary ≠ "")).map formatCtxLine).take 3)
    tool_calls := [] }

/-- Python's `list.insert(-1, x)`: insert before the last element
(degenerating to append on an empty list). -/
def pyInsertBeforeLast (x : α) : List α → List α
  | [] => [x]
  | [a] => [x, a]
  | a :: b :: l => a :: pyInsertBeforeLast x (b :: l)

/-- Embedding of the `_retrieve_relevant_context` node as a function of
the state and of the entries `retrieve_user_context` returned for the
current turn. Mirrors the guards of the source: no user message, a
missing `user_id`, an empty current message, no retrieval results, or no
result with a non-empty summary each leave the state unchanged; otherwise
ONE synthetic system message summarising the first three summary lines is
inserted at position `len(messages) - 1` via `messages.insert(-1, ...)`.
(The `int(user_id)` conversion is already-an-int here since `user_id` is
embedded as `Option Int`.) -/
def retrieve_relevant_context (state : AgentState)
    (context_results : List ContextEntry) : AgentState :=
  let human_messages := state.messages.filter (fun m => decide (m.role = Role.user))
  if h : human_messages = [] then state
  else
    let current_message := (human_messages.getLast h).content
    match state.user_id with
    | none => state
    | some _ =>
      if current_message = "" then state
      else if context_results = [] then state
      else
        let context_summaries :=
          (context_results.filter (fun e => e.summary ≠ "")).map formatCtxLine
        if context_summaries = [] then state
        else if 1 ≤ state.messages.length then
          let context_msg : Msg :=
            { role := Role.system
              content := contextMessage (context_summaries.take 3)
              tool_calls := [] }
          { state with messages := pyInsertBeforeLast context_msg state.messages }
        else state

/-! ## Context loading (`_load_user_context`, agent.py). -/

/-- A context dictionary as the aggregation loop of `_load_user_context`
reads it with `ctx.get(...)`: besides the summary data, the loop probes
the optional keys `plants_discussed`, `experience_level`, `preferences`,
`common_issues`, `environment` and `goals` (dictionaries built by
`retrieve_user_context` never carry those six, in which case the fields
are `[]` / `none`). -/
structure LoadCtxEntry where
  relevance_score : ℚ := 0
  summary : String := ""
  plants_discussed : List String := []
  experience_level : Option String := none
  preferences : Option String := none
  common_issues : Option String := none
  environment : Option String := none
  goals : Option String := none
deriving DecidableEq, Inhabited

/-- Python truthiness of `ctx.get(key)` for a string-valued key: present
and non-empty. -/
def truthyStr : Option String → Bool
  | none => false
  | some s => s ≠ ""

/-- One iteration of the aggregation loop of `_load_user_context`: each
truthy entry value is appended (plants) or overwrites the field
(scalars). -/
def applyCtx (p : UserProfile) (ctx : LoadCtxEntry) : UserProfile :=
  let p := if ctx.plants_discussed ≠ [] then
      { p with plants_discussed := p.plants_discussed ++ ctx.plants_discussed } else p
  let p := if truthyStr ctx.experience_level then
      { p with experience_level := ctx.experience_level.getD p.experience_level } else p
  let p := if truthyStr ctx.preferences then
      { p with preferences := ctx.preferences.getD p.preferences } else p
  let p := if truthyStr ctx.common_issues then
      { p with common_issues := ctx.common_issues.getD p.common_issues } else p
  let p := if truthyStr ctx.environment then
      { p with environment := ctx.environment.getD p.environment } else p
  if truthyStr ctx.goals then { p with goals := ctx.goals.getD p.goals } else p

/-- Embedding of the `_load_user_context` node as a function of the state
and of the entry list the context service returned. `σ` embeds the
iteration order of the final `list(set(plants_discussed))` de-duplication
(see `SetOrder`). Branches mirror the source: a pre-supplied profile is
reused unchanged; with an int `user_id` and a non-empty latest user
message the retrieved entries are folded into a fresh default profile
(default kept when no entry was retrieved); otherwise the reduced
fallback profile is stored. -/
def load_user_context (state : AgentState) (context_data : List LoadCtxEntry)
    (σ : List String) : AgentState :=
  match state.user_context with
  | some _ => state
  | none =>
    let human_messages := state.messages.filter (fun m => decide (m.role = Role.user))
    let current_message :=
      match human_messages.getLast? with
      | some m => m.content
      | none => ""
    match state.user_id with
    | some u =>
      if current_message ≠ "" then
        if context_data ≠ [] then
          let base : UserProfile := { user_id := some u }
          let agg := context_data.foldl applyCtx base
          { state with user_context := some { agg with plants_discussed := σ } }
        else
          { state with user_context := some { user_id := some u } }
      else
        { state with user_context := some { user_id := state.user_id } }
    | none =>
      { state with user_context := some { user_id := state.user_id } }

/-! ## The tools' global current-state cell
(`set_current_state` / `get_current_state` / `diagnose_plant_from_image`,
`src/backend/src/chat/tools.py`). The module-level variable
`_current_state` is shared by EVERY conversation in the process: each run
of the `_chat_with_tools` node overwrites it with that conversation's
state (agent.py line 340), and the image-diagnosis tool later reads
`get_current_state().get("image_data")`. Interleaved turns of distinct
conversations are embedded as an event trace acting on the one cell. -/

/-- The two events relevant to the shared cell: a `_chat_with_tools` run
for some conversation calling `set_current_state(state)`, and an
execution of `diagnose_plant_from_image` on behalf of a conversation
(identified by its thread key) reading the cell. -/
inductive ToolEvent where
  | setState (s : AgentState)
  | imageToolRun (conversation : String)
deriving DecidableEq

/-- The image datum `diagnose_plant_from_image` obtains from the global
cell (`current_state.get("image_data")` when a state is set, `None`
otherwise). -/
def toolImageRead (g : Option AgentState) : Option String :=
  match g with
  | some st => st.image_data
  | none => none

/-- Run a trace of events over the global `_current_state` cell starting
from contents `g`, recording for each image-tool execution the pair
(invoking conversation, image datum the tool consumed). -/
def traceToolReads (g : Option AgentState) : List ToolEvent → List (String × Option String)
  | [] => []
  | ToolEvent.setState s :: rest => traceToolReads (some s) rest
  | ToolEvent.imageToolRun c :: rest => (c, toolImageRead g) :: traceToolReads g rest

/-- The value of the scalar key `f` in the LAST entry whose value is
truthy (the aggregation loop of `_load_user_context` overwrites scalar
fields, so the last truthy entry wins), `none` when no entry carries a
truthy value. -/
def lastTruthy (f : LoadCtxEntry → Option String) : List LoadCtxEntry → Option String
  | [] => none
  | c :: rest =>
    match lastTruthy f rest with
    | some v => some v
    | none => if truthyStr (f c) then f c else none

/-! ## Statement predicates for the multi-part claims -/

/-- Conclusion of the (amended) mode/mean specification of
`aggregate_diagnosis_context` on a non-empty input: `plant_name` a
candidate name of maximal multiplicity, `condition` a non-Unknown
condition of maximal multiplicity (default `"Healthy"`), `confidence`
the arithmetic mean of the similarity scores. -/
def AggregateModeMeanSpec (σp σc : List String)
    (ctxs : List DiagnosisCandidate) : Prop :=
  ((aggregate_diagnosis_context σp σc ctxs).plant_name ∈ ctxs.map (·.plant_name) ∧
    ∀ n ∈ ctxs.map (·.plant_name),
      (ctxs.map (·.plant_name)).count n ≤
        (ctxs.map (·.plant_name)).count
          (aggregate_diagnosis_context σp σc ctxs).plant_name) ∧
  ((ctxs.filter (fun c => c.condition ≠ "Unknown")).map (·.condition) = [] →
    (aggregate_diagnosis_context σp σc ctxs).condition = "Healthy") ∧
  ((ctxs.filter (fun c => c.condition ≠ "Unknown")).map (·.condition) ≠ [] →
    (aggregate_diagnosis_context σp σc ctxs).condition ∈
        (ctxs.filter (fun c => c.condition ≠ "Unknown")).map (·.condition) ∧
      ∀ c ∈ (ctxs.filter (fun c => c.condition ≠ "Unknown")).map (·.condition),
        ((ctxs.filter (fun c => c.condition ≠ "Unknown")).map (·.condition)).count c ≤
          ((ctxs.filter (fun c => c.condition ≠ "Unknown")).map (·.condition)).count
            (aggregate_diagnosis_context σp σc ctxs).condition) ∧
  (aggregate_diagnosis_context σp σc ctxs).confidence =
    (ctxs.map (·.score)).sum / ctxs.length

/-- Conclusion of the permutation-insensitivity / treatment-union
specification of `aggregate_diagnosis_context`. -/
def AggregatePermSpec (l l' : List DiagnosisCandidate) (σp σc : List String) : Prop :=
  (aggregate_diagnosis_context σp σc l).plant_name
      = (aggregate_diagnosis_context σp σc l').plant_name ∧
  (aggregate_diagnosis_context σp σc l).condition
      = (aggregate_diagnosis_context σp σc l').condition ∧
  (aggregate_diagnosis_context σp σc l).treatments
      = (firstSeenDedup (l.flatMap (·.treatment))).take 5 ∧
  (aggregate_diagnosis_context σp σc l).treatments.Nodup ∧
  (aggregate_diagnosis_context σp σc l).treatments.Sublist (l.flatMap (·.treatment)) ∧
  (aggregate_diagnosis_context σp σc l).treatments.length ≤ 5

/-- Conclusion of the filter-only retrieval contract: at most `k`
entries, nothing dropped, the recency formula on every parseable
timestamp, descending order, and monotonicity of the formula. -/
def RetrieveContractSpec (ms : List PineconeMatch) (k : Nat) : Prop :=
  (retrieve_user_context ms).length ≤ k ∧
  (retrieve_user_context ms).length = ms.length ∧
  (∀ e ∈ retrieve_user_context ms, ∀ d : Int, e.daysAgo = some d →
      e.relevance_score = max (1/10) (1 - (d : ℚ) * (1/10))) ∧
  List.Pairwise (fun a b => b.relevance_score ≤ a.relevance_score)
    (retrieve_user_context ms) ∧
  ∀ d d' : Int, d ≤ d' → recencyScore d' ≤ recencyScore d

/-- Conclusion of the default-score ranking specification: a missing or
unparseable timestamp scores exactly `0.5`, which places the entry after
every entry newer than 5 days and before every entry older than 5 days
in the sorted output. -/
def RankingSpec (ms : List PineconeMatch) : Prop :=
  (∀ e ∈ retrieve_user_context ms, e.daysAgo = none → e.relevance_score = 1/2) ∧
  (∀ (i j : Nat) (ei ej : ContextEntry) (d : Int),
      (retrieve_user_context ms)[i]? = some ei →
      (retrieve_user_context ms)[j]? = some ej →
      ei.daysAgo = none → ej.daysAgo = some d → 5 < d → i < j) ∧
  (∀ (i j : Nat) (ei ej : ContextEntry) (d : Int),
      (retrieve_user_context ms)[i]? = some ei →
      (retrieve_user_context ms)[j]? = some ej →
      ei.daysAgo = none → ej.daysAgo = some d → d < 5 → j < i)

/-- Conclusion of the context-injection specification: the node returns
the original conversation with exactly ONE synthetic system message
(carrying the first three summary lines) placed immediately before the
final (latest user) message. -/
def InjectionSpec (st : AgentState) (results : List ContextEntry)
    (init : List Msg) (lastMsg : Msg) : Prop :=
  (retrieve_relevant_context st results).messages =
      init ++ [injectedMsg results, lastMsg] ∧
  (retrieve_relevant_context st results).messages.length = st.messages.length + 1

/-- Conclusion of the profile-aggregation specification of
`_load_user_context`: the stored profile contains every plant carried by
a retrieved entry, and each scalar field equals a value carried by some
entry whenever any entry carries one. -/
def LoadReflectSpec (st : AgentState) (ctxs : List LoadCtxEntry)
    (σ : List String) : Prop :=
  ∃ P : UserProfile,
    (load_user_context st ctxs σ).user_context = some P ∧
    (∀ c ∈ ctxs, ∀ pl ∈ c.plants_discussed, pl ∈ P.plants_discussed) ∧
    ((∃ c ∈ ctxs, truthyStr c.experience_level) →
      ∃ c ∈ ctxs, truthyStr c.experience_level ∧
        c.experience_level = some P.experience_level) ∧
    ((∃ c ∈ ctxs, truthyStr c.preferences) →
      ∃ c ∈ ctxs, truthyStr c.preferences ∧
        c.preferences = some P.preferences) ∧
    ((∃ c ∈ ctxs, truthyStr c.common_issues) →
      ∃ c ∈ ctxs, truthyStr c.common_issues ∧
        c.common_issues = some P.common_issues)

/-! ## Concrete sample inputs used by counterexamples and witnesses -/

/-- A similar-case candidate for an aloe plant. -/
def candAloe : DiagnosisCandidate :=
  { score := 7/10, plant_name := "Aloe Vera", condition := "Root Rot"
    symptoms := ["soft leaves"], treatment := ["repot", "water less"]
    confidence := 4/5, image_description := "a drooping aloe", similar_cases := 1 }

/-- A similar-case candidate for a basil plant (same score, tying with
`candAloe` on plant-name multiplicity). -/
def candBasil : DiagnosisCandidate :=
  { score := 7/10, plant_name := "Basil", condition := "Root Rot"
    symptoms := ["brown spots"], treatment := ["water less", "add light"]
    confidence := 3/5, image_description := "a spotted basil", similar_cases := 1 }

/-- A third candidate whose condition is the literal "Unknown". -/
def candFernUnknown : DiagnosisCandidate :=
  { score := 1/2, plant_name := "Basil", condition := "Unknown"
    symptoms := [], treatment := ["repot"]
    confidence := 1/5, image_description := "a fern", similar_cases := 1 }

/-- Stored context summaries aged 0, 1, 9, 20 and 40 days (the store of
the spec's end-to-end scenario 4), plus one with an unreadable
timestamp. -/
def matchToday : PineconeMatch :=
  { daysAgo := some 0, conversation_id := "c0", summary := "today summary"
    message_count := 4, has_images := false }

def matchOneDay : PineconeMatch :=
  { daysAgo := some 1, conversation_id := "c1", summary := "one day summary"
    message_count := 2, has_images := true }

def matchNineDays : PineconeMatch :=
  { daysAgo := some 9, conversation_id := "c9", summary := "nine day summary"
    message_count := 6, has_images := false }

def matchTwentyDays : PineconeMatch :=
  { daysAgo := some 20, conversation_id := "c20", summary := "twenty day summary"
    message_count := 2, has_images := false }

def matchFortyDays : PineconeMatch :=
  { daysAgo := some 40, conversation_id := "c40", summary := "forty day summary"
    message_count := 8, has_images := true }

def matchNoTimestamp : PineconeMatch :=
  { daysAgo := none, conversation_id := "cx", summary := "unreadable timestamp"
    message_count := 1, has_images := false }

/-- The five matching records of scenario 4. -/
def scenario4Store : List PineconeMatch :=
  [matchToday, matchOneDay, matchNineDays, matchTwentyDays, matchFortyDays]

/-- One legitimate `top_k = 3` Pinecone response for the zero-vector
filter query over `scenario4Store`: the three OLDEST records (the store
ranks by similarity to the dummy zero vector, which orders the filter
matches arbitrarily). -/
def scenario4OldResponse : List PineconeMatch :=
  [matchNineDays, matchTwentyDays, matchFortyDays]

/-- The Pinecone response assumed by the spec's scenario 4: the three
most recent records (listed out of date order to exercise the sort). -/
def scenario4RecentResponse : List PineconeMatch :=
  [matchNineDays, matchToday, matchOneDay]

/-- Conversation state of thread "A", carrying image `"imageA"`. -/
def convStateA : AgentState :=
  { messages := [{ role := Role.user
                   content := "What is wrong with my plant?", tool_calls := [] }]
    user_id := some 1, conversation_id := some "A"
    user_context := none, image_data := some "imageA", error := none }

/-- Conversation state of thread "B", carrying image `"imageB"`. -/
def convStateB : AgentState :=
  { messages := [{ role := Role.user
                   content := "Please look at this leaf.", tool_calls := [] }]
    user_id := some 2, conversation_id := some "B"
    user_context := none, image_data := some "imageB", error := none }

/-- A retrieved context entry with a non-empty summary. -/
def entryMonstera : ContextEntry :=
  { relevance_score := 9/10, conversation_id := "c1", daysAgo := some 1
    summary := "Discussed overwatered monstera", message_count := 4
    has_images := true }

/-- A retrieved-entry dictionary carrying an experience level and one
plant (as the aggregation loop of `_load_user_context` probes for). -/
def ctxExpert : LoadCtxEntry :=
  { relevance_score := 9/10, summary := "expert gardener"
    plants_discussed := ["Monstera"], experience_level := some "expert"
    preferences := some "low maintenance", common_issues := none
    environment := none, goals := none }

/-- A second retrieved-entry dictionary carrying another plant and a
common-issue note. -/
def ctxIssues : LoadCtxEntry :=
  { relevance_score := 1/2, summary := "pest trouble"
    plants_discussed := ["Pothos", "Monstera"], experience_level := none
    preferences := none, common_issues := some "fungus gnats"
    environment := none, goals := none }

/-- A two-message conversation whose latest message is the user's. -/
def injectWitnessState : AgentState :=
  { messages :=
      [{ role := Role.assistant, content := "Hello! How can I help?"
         tool_calls := [] },
       { role := Role.user, content := "My monstera has yellow leaves"
         tool_calls := [] }]
    user_id := some 7, conversation_id := some "42"
    user_context := none, image_data := none, error := none }

/-- A fresh one-message conversation without a pre-supplied profile. -/
def loadWitnessState : AgentState :=
  { messages := [{ role := Role.user, content := "How is my monstera?"
                   tool_calls := [] }]
    user_id := some 7, conversation_id := some "42"
    user_context := none, image_data := none, error := none }

/-! ## Helper lemmas -/

theorem pyMax1_cons (key : α → Nat) (a x : α) (l : List α) :
    pyMax1 key a (x :: l) = pyMax1 key (if key a < key x then x else a) l := rfl

theorem pyMax1_mem (key : α → Nat) (a : α) (l : List α) :
    pyMax1 key a l ∈ a :: l := by
  induction l generalizing a with
  | nil => simp [pyMax1]
  | cons x t ih =>
    rw [pyMax1_cons]
    by_cases hax : key a < key x
    · rw [if_pos hax]
      rcases List.mem_cons.mp (ih x) with h | h
      · simp [h]
      · simp [List.mem_cons, h]
    · rw [if_neg hax]
      rcases List.mem_cons.mp (ih a) with h | h
      · simp [h]
      · simp [List.mem_cons, h]

theorem pyMax1_le (key : α → Nat) (a : α) (l : List α) :
    ∀ y ∈ a :: l, key y ≤ key (pyMax1 key a l) := by
  induction l generalizing a with
  | nil => intro y hy; simp at hy; simp [pyMax1, hy]
  | cons x t ih =>
    intro y hy
    rw [pyMax1_cons]
    have hb : ∀ z ∈ (if key a < key x then x else a) :: t,
        key z ≤ key (pyMax1 key (if key a < key x then x else a) t) :=
      ih (if key a < key x then x else a)
    have hbmem := hb (if key a < key x then x else a) (List.mem_cons_self _ _)
    rcases List.mem_cons.mp hy with rfl | hy
    · refine le_trans ?_ hbmem
      split <;> omega
    · rcases List.mem_cons.mp hy with rfl | hy
      · refine le_trans ?_ hbmem
        split <;> omega
      · exact hb y (List.mem_cons_of_mem _ hy)

theorem pyMax_spec [DecidableEq α] (key : α → Nat) (σ xs : List α)
    (h : SetOrder σ xs) (hne : xs ≠ []) :
    ∃ m, pyMax key σ = some m ∧ m ∈ xs ∧ ∀ x ∈ xs, key x ≤ key m := by
  obtain ⟨x0, hx0⟩ := List.exists_mem_of_ne_nil xs hne
  have hx0σ : x0 ∈ σ := h.2.2 x0 hx0
  obtain ⟨a, t, rfl⟩ : ∃ a t, σ = a :: t := by
    cases σ with
    | nil => exact absurd hx0σ (List.not_mem_nil x0)
    | cons a t => exact ⟨a, t, rfl⟩
  refine ⟨pyMax1 key a t, rfl, h.2.1 _ (pyMax1_mem key a t), ?_⟩
  intro x hx
  exact pyMax1_le key a t x (h.2.2 x hx)

theorem mem_firstSeenDedup [DecidableEq α] (a : α) (l : List α) :
    a ∈ firstSeenDedup l ↔ a ∈ l := by
  induction l with
  | nil => simp [firstSeenDedup]
  | cons x t ih =>
    simp only [firstSeenDedup, List.mem_cons, List.mem_filter]
    constructor
    · rintro (rfl | ⟨h, _⟩)
      · exact .inl rfl
      · exact .inr (ih.mp h)
    · rintro (rfl | h)
      · exact .inl rfl
      · by_cases hax : a = x
        · exact .inl hax
        · exact .inr ⟨ih.mpr h, by simp [hax]⟩

theorem sublist_firstSeenDedup [DecidableEq α] (l : List α) :
    (firstSeenDedup l).Sublist l := by
  induction l with
  | nil => simp [firstSeenDedup]
  | cons x t ih =>
    simpa [firstSeenDedup] using
      ((List.filter_sublist (firstSeenDedup t)).trans ih).cons₂ x

theorem nodup_firstSeenDedup [DecidableEq α] (l : List α) :
    (firstSeenDedup l).Nodup := by
  induction l with
  | nil => simp [firstSeenDedup]
  | cons x t ih =>
    refine List.Nodup.cons ?_ (ih.filter _)
    intro hx
    have := (List.mem_filter.mp hx).2
    simp at this

theorem insertDesc_perm (e : ContextEntry) (l : List ContextEntry) :
    (insertDesc e l).Perm (e :: l) := by
  induction l with
  | nil => exact List.Perm.refl _
  | cons a l ih =>
    by_cases h : a.relevance_score ≤ e.relevance_score
    · simp [insertDesc, h]
    · simpa [insertDesc, h] using (ih.cons a).trans (List.Perm.swap e a l)

theorem sortByScoreDesc_perm (l : List ContextEntry) :
    (sortByScoreDesc l).Perm l := by
  induction l with
  | nil => exact List.Perm.refl _
  | cons e l ih =>
    exact (insertDesc_perm e (sortByScoreDesc l)).trans (ih.cons e)

theorem insertDesc_pairwise (e : ContextEntry) (l : List ContextEntry)
    (h : l.Pairwise (fun a b => b.relevance_score ≤ a.relevance_score)) :
    (insertDesc e l).Pairwise
      (fun a b => b.relevance_score ≤ a.relevance_score) := by
  induction l with
  | nil => simp [insertDesc]
  | cons a l ih =>
    rw [List.pairwise_cons] at h
    by_cases hle : a.relevance_score ≤ e.relevance_score
    · rw [insertDesc, if_pos hle, List.pairwise_cons]
      refine ⟨?_, List.pairwise_cons.mpr h⟩
      intro x hx
      rcases List.mem_cons.mp hx with rfl | hx
      · exact hle
      · exact le_trans (h.1 x hx) hle
    · rw [insertDesc, if_neg hle, List.pairwise_cons]
      refine ⟨?_, ih h.2⟩
      intro x hx
      rcases List.mem_cons.mp ((insertDesc_perm e l).mem_iff.mp hx) with rfl | hx'
      · exact le_of_lt (lt_of_not_le hle)
      · exact h.1 x hx'

theorem sortByScoreDesc_pairwise (l : List ContextEntry) :
    (sortByScoreDesc l).Pairwise
      (fun a b => b.relevance_score ≤ a.relevance_score) := by
  induction l with
  | nil => simp [sortByScoreDesc]
  | cons e l ih => exact insertDesc_pairwise e (sortByScoreDesc l) ih

theorem retrieve_entry_chars (ms : List PineconeMatch) :
    ∀ e ∈ retrieve_user_context ms,
      e.relevance_score =
        match e.daysAgo with
        | some d => recencyScore d
        | none => 1/2 := by
  intro e he
  have hmem : e ∈ ms.map mkContextEntry :=
    (sortByScoreDesc_perm (ms.map mkContextEntry)).mem_iff.mp he
  obtain ⟨m, _, rfl⟩ := List.mem_map.mp hmem
  cases h : m.daysAgo <;> simp [mkContextEntry, matchScore, h]

theorem recencyScore_zero : recencyScore 0 = 1 := by
  unfold recencyScore
  rw [max_eq_right]
  all_goals norm_num

theorem recencyScore_one : recencyScore 1 = 9/10 := by
  unfold recencyScore
  rw [max_eq_right]
  all_goals norm_num

theorem recencyScore_nine : recencyScore 9 = 1/10 := by
  unfold recencyScore
  rw [show (1 - (9:ℤ) * ((1:ℚ)/10) : ℚ) = 1/10 by norm_num, max_self]

theorem recencyScore_twenty : recencyScore 20 = 1/10 := by
  unfold recencyScore
  rw [max_eq_left]
  all_goals norm_num

theorem recencyScore_forty : recencyScore 40 = 1/10 := by
  unfold recencyScore
  rw [max_eq_left]
  all_goals norm_num

theorem recencyScore_lt_half (d : Int) (hd : 5 < d) : recencyScore d < 1/2 := by
  have hdq : (5 : ℚ) < (d : ℚ) := by exact_mod_cast hd
  unfold recencyScore
  apply max_lt (by norm_num)
  linarith

theorem half_lt_recencyScore (d : Int) (hd : d < 5) : 1/2 < recencyScore d := by
  have hdq : (d : ℚ) < (5 : ℚ) := by exact_mod_cast hd
  calc (1/2 : ℚ) < 1 - d * (1/10) := by linarith
    _ ≤ recencyScore d := le_max_right _ _

theorem sorted_score_index_lt (l : List ContextEntry)
    (hs : l.Pairwise (fun a b => b.relevance_score ≤ a.relevance_score))
    (i j : Nat) (ei ej : ContextEntry)
    (hi : l[i]? = some ei) (hj : l[j]? = some ej)
    (hlt : ej.relevance_score < ei.relevance_score) : i < j := by
  obtain ⟨hib, hieq⟩ := List.getElem?_eq_some.mp hi
  obtain ⟨hjb, hjeq⟩ := List.getElem?_eq_some.mp hj
  by_contra hns
  rcases Nat.lt_or_ge j i with hji | hij
  · have := List.pairwise_iff_get.mp hs ⟨j, hjb⟩ ⟨i, hib⟩ hji
    simp only [List.get_eq_getElem, hieq, hjeq] at this
    exact absurd hlt (not_lt.mpr this)
  · have : i = j := Nat.le_antisymm hij (Nat.le_of_not_lt hns)
    subst this
    rw [hieq] at hjeq
    subst hjeq
    exact lt_irrefl _ hlt

theorem pyInsertBeforeLast_append (x : α) :
    ∀ (l : List α) (a : α), pyInsertBeforeLast x (l ++ [a]) = l ++ [x, a]
  | [], _ => rfl
  | [_], _ => rfl
  | b :: c :: l, a => by
    show b :: pyInsertBeforeLast x ((c :: l) ++ [a]) = b :: ((c :: l) ++ [x, a])
    rw [pyInsertBeforeLast_append x (c :: l) a]

theorem pyMax1_congr (key₁ key₂ : α → Nat) (h : ∀ x, key₁ x = key₂ x) (a : α)
    (l : List α) : pyMax1 key₁ a l = pyMax1 key₂ a l := by
  induction l generalizing a with
  | nil => rfl
  | cons x t ih => rw [pyMax1_cons, pyMax1_cons, h a, h x, ih]

theorem pyMax_congr (key₁ key₂ : α → Nat) (h : ∀ x, key₁ x = key₂ x)
    (σ : List α) : pyMax key₁ σ = pyMax key₂ σ := by
  cases σ with
  | nil => rfl
  | cons a t => simp [pyMax, pyMax1_congr key₁ key₂ h a t]

theorem applyCtx_plants (p : UserProfile) (c : LoadCtxEntry) :
    (applyCtx p c).plants_discussed = p.plants_discussed ++ c.plants_discussed := by
  simp only [applyCtx]
  split_ifs with h1 h2 h3 h4 h5 h6 <;> simp_all

theorem applyCtx_experience (p : UserProfile) (c : LoadCtxEntry) :
    (applyCtx p c).experience_level =
      if truthyStr c.experience_level then c.experience_level.getD p.experience_level
      else p.experience_level := by
  simp only [applyCtx]
  split_ifs <;> rfl

theorem applyCtx_preferences (p : UserProfile) (c : LoadCtxEntry) :
    (applyCtx p c).preferences =
      if truthyStr c.preferences then c.preferences.getD p.preferences
      else p.preferences := by
  simp only [applyCtx]
  split_ifs <;> rfl

theorem applyCtx_common_issues (p : UserProfile) (c : LoadCtxEntry) :
    (applyCtx p c).common_issues =
      if truthyStr c.common_issues then c.common_issues.getD p.common_issues
      else p.common_issues := by
  simp only [applyCtx]
  split_ifs <;> rfl

theorem foldl_applyCtx_plants (ctxs : List LoadCtxEntry) (p : UserProfile) :
    (ctxs.foldl applyCtx p).plants_discussed =
      p.plants_discussed ++ ctxs.flatMap (·.plants_discussed) := by
  induction ctxs generalizing p with
  | nil => simp
  | cons c rest ih =>
    simp only [List.foldl_cons, List.flatMap_cons, ih (applyCtx p c),
      applyCtx_plants, List.append_assoc]

theorem truthyStr_eq_some (o : Option String) (h : truthyStr o) :
    ∃ s, o = some s ∧ s ≠ "" := by
  cases o with
  | none => simp [truthyStr] at h
  | some s => exact ⟨s, rfl, by simpa [truthyStr] using h⟩

theorem foldl_applyCtx_scalar
    (f : LoadCtxEntry → Option String) (proj : UserProfile → String)
    (happly : ∀ p c, proj (applyCtx p c) =
      if truthyStr (f c) then (f c).getD (proj p) else proj p)
    (ctxs : List LoadCtxEntry) (p : UserProfile) :
    proj (ctxs.foldl applyCtx p) =
      match lastTruthy f ctxs with
      | some v => v
      | none => proj p := by
  induction ctxs generalizing p with
  | nil => rfl
  | cons c rest ih =>
    simp only [List.foldl_cons, lastTruthy, ih (applyCtx p c)]
    cases hrest : lastTruthy f rest with
    | some v => simp
    | none =>
      simp only [happly p c]
      by_cases hc : truthyStr (f c)
      · obtain ⟨s, hs, _⟩ := truthyStr_eq_some (f c) hc
        rw [hs] at hc
        simp [hc, hs]
      · simp [hc]

theorem lastTruthy_mem (f : LoadCtxEntry → Option String)
    (ctxs : List LoadCtxEntry) (v : String) (h : lastTruthy f ctxs = some v) :
    ∃ c ∈ ctxs, truthyStr (f c) ∧ f c = some v := by
  induction ctxs with
  | nil => simp [lastTruthy] at h
  | cons c rest ih =>
    simp only [lastTruthy] at h
    cases hrest : lastTruthy f rest with
    | some w =>
      rw [hrest] at h
      obtain ⟨c', hc', ht, hv⟩ := ih (hrest.trans (by injection h; simp [*]))
      exact ⟨c', List.mem_cons_of_mem _ hc', ht, hv⟩
    | none =>
      rw [hrest] at h
      by_cases hc : truthyStr (f c)
      · rw [if_pos hc] at h
        exact ⟨c, List.mem_cons_self _ _, hc, h⟩
      · rw [if_neg hc] at h
        exact absurd h (by simp)

theorem lastTruthy_isSome (f : LoadCtxEntry → Option String)
    (ctxs : List LoadCtxEntry) (h : ∃ c ∈ ctxs, truthyStr (f c)) :
    ∃ v, lastTruthy f ctxs = some v := by
  induction ctxs with
  | nil => simp at h
  | cons c rest ih =>
    simp only [lastTruthy]
    cases hrest : lastTruthy f rest with
    | some w => exact ⟨w, rfl⟩
    | none =>
      obtain ⟨c', hc', ht⟩ := h
      rcases List.mem_cons.mp hc' with rfl | hmem
      · obtain ⟨s, hs, _⟩ := truthyStr_eq_some (f c') ht
        rw [hs] at ht
        exact ⟨s, by simp [ht, hs]⟩
      · obtain ⟨v, hv⟩ := ih ⟨c', hmem, ht⟩
        rw [hrest] at hv
        exact absurd hv (by simp)

theorem aggregate_plant_name_eq (σp σc : List String)
    (ctxs : List DiagnosisCandidate) (hne : ctxs ≠ []) :
    (aggregate_diagnosis_context σp σc ctxs).plant_name
      = (pyMax (fun s => (ctxs.map (·.plant_name)).count s) σp).getD "Unknown" := by
  simp [aggregate_diagnosis_context, hne]

theorem aggregate_condition_eq (σp σc : List String)
    (ctxs : List DiagnosisCandidate) (hne : ctxs ≠ []) :
    (aggregate_diagnosis_context σp σc ctxs).condition
      = (if ((ctxs.filter (fun c => c.condition ≠ "Unknown")).map (·.condition)) = []
         then "Healthy"
         else (pyMax (fun s =>
              (((ctxs.filter (fun c => c.condition ≠ "Unknown")).map
                (·.condition)).count s)) σc).getD "Healthy") := by
  simp [aggregate_diagnosis_context, hne]

theorem aggregate_treatments_eq (σp σc : List String)
    (ctxs : List DiagnosisCandidate) :
    (aggregate_diagnosis_context σp σc ctxs).treatments
      = (firstSeenDedup (ctxs.flatMap (·.treatment))).take 5 := by
  by_cases h : ctxs = []
  · subst h; rfl
  · simp [aggregate_diagnosis_context, h]

/-! ## Claim theorems -/

/-- Claim C4: `aggregate_diagnosis_context` applied to an empty candidate
list never raises (it is a total function) and returns the no-evidence
dictionary: plant "Unknown", condition "Unable to determine", confidence
0, no treatments, zero similar cases, no context sources. -/
theorem aggregate_empty_no_evidence :
    ∀ σp σc : List String,
      aggregate_diagnosis_context σp σc [] =
        { plant_name := "Unknown", condition := "Unable to determine"
          confidence := 0, treatments := [], similar_cases_count := 0
          context_sources := none } :=
  fun _ _ => rfl

/-- Claim C3: an exception inside the Reason/chat node
(`_chat_with_tools`) is converted into the fixed apologetic assistant
message appended to the unchanged conversation, with the error recorded
on the state instead of propagated; and `process_message` is a total
function that, when the workflow run fails, returns the typed result
carrying the apologetic response and the error string — no exception
reaches its caller. -/
theorem reason_and_engine_failures_contained :
    (∀ (sp : String) (state : AgentState) (e : String),
        chat_with_tools sp state (Except.error e) =
          { state with
              error := some e
              messages := state.messages ++
                [{ role := Role.assistant, content := chatNodeApology
                   tool_calls := [] }] }) ∧
    (∀ (initial : AgentState) (e : String),
        process_message (fun _ => Except.error e) initial =
          { response := processMessageApology, conversation_id := none
            input_tokens := 0, output_tokens := 0, error := some e }) :=
  ⟨fun _ _ _ => rfl, fun _ _ => rfl⟩

/-- Claim C1 counterexample: the tie-break of the plant-name mode is NOT
first-seen order. With the two equally frequent names "Aloe Vera" (seen
first) and "Basil", the set iteration order ["Basil", "Aloe Vera"] is a
legitimate Python `set` ordering under which
`max(set(plant_names), key=plant_names.count)` yields "Basil", while the
first-seen mode the claim specifies is "Aloe Vera". -/
theorem aggregate_tiebreak_counterexample :
    SetOrder ["Basil", "Aloe Vera"] ([candAloe, candBasil].map (·.plant_name)) ∧
    SetOrder ["Root Rot"]
      (([candAloe, candBasil].filter (fun c => c.condition ≠ "Unknown")).map
        (·.condition)) ∧
    specFirstSeenMode ([candAloe, candBasil].map (·.plant_name)) =
      some "Aloe Vera" ∧
    (aggregate_diagnosis_context ["Basil", "Aloe Vera"] ["Root Rot"]
        [candAloe, candBasil]).plant_name = "Basil" ∧
    ("Basil" : String) ≠ "Aloe Vera" :=
  ⟨by decide, by decide, by decide, by decide, by decide⟩

/-- Claim C1 (amended): for every non-empty candidate list and every set
iteration order, `plant_name` is a candidate plant name of maximal
multiplicity (the tie-break among equally frequent names follows the
hash-dependent set order, not first-seen order), `condition` is a
non-"Unknown" condition of maximal multiplicity (defaulting to "Healthy"
when none qualifies), and `confidence` is the arithmetic mean of the
candidates' similarity scores. -/
theorem aggregate_nonempty_mode_mean (σp σc : List String)
    (ctxs : List DiagnosisCandidate) (hne : ctxs ≠ [])
    (hp : SetOrder σp (ctxs.map (·.plant_name)))
    (hc : SetOrder σc
      ((ctxs.filter (fun c => c.condition ≠ "Unknown")).map (·.condition))) :
    AggregateModeMeanSpec σp σc ctxs := by
  have hplant : (aggregate_diagnosis_context σp σc ctxs).plant_name
      = (pyMax (fun s => (ctxs.map (·.plant_name)).count s) σp).getD "Unknown" := by
    simp [aggregate_diagnosis_context, hne]
  have hcond : (aggregate_diagnosis_context σp σc ctxs).condition
      = (if ((ctxs.filter (fun c => c.condition ≠ "Unknown")).map (·.condition)) = []
         then "Healthy"
         else (pyMax (fun s =>
            (((ctxs.filter (fun c => c.condition ≠ "Unknown")).map (·.condition)).count s))
            σc).getD "Healthy") := by
    simp [aggregate_diagnosis_context, hne]
  have hconf : (aggregate_diagnosis_context σp σc ctxs).confidence
      = (ctxs.map (·.score)).sum / ctxs.length := by
    simp [aggregate_diagnosis_context, hne]
  unfold AggregateModeMeanSpec
  refine ⟨?_, ?_, ?_, hconf⟩
  · obtain ⟨m, hm, hmem, hle⟩ :=
      pyMax_spec (fun s => (ctxs.map (·.plant_name)).count s) σp
        (ctxs.map (·.plant_name)) hp
        (fun h => hne (List.map_eq_nil_iff.mp h))
    rw [hplant, hm, Option.getD_some]
    exact ⟨hmem, hle⟩
  · intro h
    rw [hcond, if_pos h]
  · intro h
    obtain ⟨m, hm, hmem, hle⟩ :=
      pyMax_spec
        (fun s =>
          (((ctxs.filter (fun c => c.condition ≠ "Unknown")).map (·.condition)).count s))
        σc ((ctxs.filter (fun c => c.condition ≠ "Unknown")).map (·.condition)) hc h
    rw [hcond, if_neg h, hm, Option.getD_some]
    exact ⟨hmem, hle⟩

/-- Claim C1 amended-theorem witness at a concrete three-candidate
input. -/
theorem aggregate_nonempty_mode_mean_witness :
    ([candAloe, candBasil, candFernUnknown] ≠ ([] : List DiagnosisCandidate)) ∧
    SetOrder ["Aloe Vera", "Basil"]
      ([candAloe, candBasil, candFernUnknown].map (·.plant_name)) ∧
    SetOrder ["Root Rot"]
      (([candAloe, candBasil, candFernUnknown].filter
          (fun c => c.condition ≠ "Unknown")).map (·.condition)) ∧
    AggregateModeMeanSpec ["Aloe Vera", "Basil"] ["Root Rot"]
      [candAloe, candBasil, candFernUnknown] :=
  ⟨by decide, by decide, by decide,
    aggregate_nonempty_mode_mean _ _ _ (by decide) (by decide) (by decide)⟩

/-- Claim C5: permuting the candidate list changes neither `plant_name`
nor `condition` (the multiplicity counts and the distinct-element set are
permutation-invariant, and the set iteration order is a function of the
set alone), while `treatments` is the concatenation of the candidates'
treatment lists with first-seen order-preserving de-duplication, capped
at 5 entries — hence duplicate-free, a subsequence of the concatenation,
and of length at most 5. -/
theorem aggregate_perm_insensitive_treatments (l l' : List DiagnosisCandidate)
    (σp σc : List String) (hperm : l.Perm l') : AggregatePermSpec l l' σp σc := by
  unfold AggregatePermSpec
  have htreat := aggregate_treatments_eq σp σc l
  refine ⟨?_, ?_, htreat, ?_, ?_, ?_⟩
  · by_cases hnil : l = []
    · have hnil' : l' = [] := by
        rw [hnil] at hperm
        exact hperm.symm.eq_nil
      rw [hnil, hnil']
    · have hnil' : l' ≠ [] := by
        intro h
        rw [h] at hperm
        exact hnil hperm.eq_nil
      rw [aggregate_plant_name_eq σp σc l hnil,
        aggregate_plant_name_eq σp σc l' hnil',
        pyMax_congr (fun s => (l.map (·.plant_name)).count s)
          (fun s => (l'.map (·.plant_name)).count s)
          (fun s => (hperm.map (·.plant_name)).count_eq s) σp]
  · by_cases hnil : l = []
    · have hnil' : l' = [] := by
        rw [hnil] at hperm
        exact hperm.symm.eq_nil
      rw [hnil, hnil']
    · have hnil' : l' ≠ [] := by
        intro h
        rw [h] at hperm
        exact hnil hperm.eq_nil
      have hcp : ((l.filter (fun c => c.condition ≠ "Unknown")).map (·.condition)).Perm
          ((l'.filter (fun c => c.condition ≠ "Unknown")).map (·.condition)) :=
        (hperm.filter (fun c => decide (c.condition ≠ "Unknown"))).map (·.condition)
      rw [aggregate_condition_eq σp σc l hnil, aggregate_condition_eq σp σc l' hnil']
      by_cases hcnil : (l.filter (fun c => c.condition ≠ "Unknown")).map (·.condition) = []
      · have hcnil' : (l'.filter (fun c => c.condition ≠ "Unknown")).map (·.condition) = [] := by
          rw [hcnil] at hcp
          exact hcp.symm.eq_nil
        rw [if_pos hcnil, if_pos hcnil']
      · have hcnil' : (l'.filter (fun c => c.condition ≠ "Unknown")).map (·.condition) ≠ [] := by
          intro h
          rw [h] at hcp
          exact hcnil hcp.eq_nil
        rw [if_neg hcnil, if_neg hcnil',
          pyMax_congr _ _ (fun s => hcp.count_eq s) σc]
  · rw [htreat]
    exact (List.take_sublist _ _).nodup (nodup_firstSeenDedup _)
  · rw [htreat]
    exact (List.take_sublist _ _).trans (sublist_firstSeenDedup _)
  · rw [htreat, List.length_take]
    exact min_le_left _ _

/-- Claim C5 witness: the two-candidate list and its transposition. -/
theorem aggregate_perm_insensitive_treatments_witness :
    ([candAloe, candBasil] : List DiagnosisCandidate).Perm [candBasil, candAloe] ∧
    AggregatePermSpec [candAloe, candBasil] [candBasil, candAloe]
      ["Basil", "Aloe Vera"] ["Root Rot"] :=
  ⟨List.Perm.swap candBasil candAloe [],
    aggregate_perm_insensitive_treatments _ _ _ _
      (List.Perm.swap candBasil candAloe [])⟩

/-- Claim C2: in filter-only mode, with the Pinecone client returning at
most `top_k` matches, `retrieve_user_context` returns at most `top_k`
entries, drops none of them (no relevance threshold is applied), assigns
every entry with a parseable timestamp the recency score
`max(0.1, 1.0 - 0.1 * days_since)`, returns the list sorted descending
by that score, and the formula is monotonically non-increasing in
`days_since`. -/
theorem retrieve_filter_only_contract (ms : List PineconeMatch) (k : Nat)
    (hk : ms.length ≤ k) : RetrieveContractSpec ms k := by
  have hlen : (retrieve_user_context ms).length = ms.length := by
    unfold retrieve_user_context
    rw [(sortByScoreDesc_perm (ms.map mkContextEntry)).length_eq, List.length_map]
  unfold RetrieveContractSpec
  refine ⟨by rw [hlen]; exact hk, hlen, ?_, ?_, ?_⟩
  · intro e he d hd
    have hch := retrieve_entry_chars ms e he
    rw [hd] at hch
    simpa [recencyScore] using hch
  · exact sortByScoreDesc_pairwise (ms.map mkContextEntry)
  · intro d d' h
    have hq : (d : ℚ) ≤ (d' : ℚ) := by exact_mod_cast h
    unfold recencyScore
    exact max_le_max le_rfl (by linarith)

/-- Claim C2 witness at the three-entry store aged 9, 0, 1 days. -/
theorem retrieve_filter_only_contract_witness :
    scenario4RecentResponse.length ≤ 5 ∧
    RetrieveContractSpec scenario4RecentResponse 5 :=
  ⟨by decide, retrieve_filter_only_contract _ 5 (by decide)⟩

/-- Claim C6 counterexample: the code does not select the 3 most recent
of the 5 matching records — the zero-vector filter query lets the vector
store pick which `top_k` matches to return. When the store returns the
three OLDEST records (aged 9, 20, 40 days), a legitimate response for
this query, the result misses the two most recent entries entirely and
every relevance score is the 0.1 floor — in particular the scores are
not approximately 1.0, 0.9, 0.2: even the 9-day entry scores exactly
0.1, not 0.2. -/
theorem retrieve_scenario4_counterexample :
    scenario4OldResponse.length ≤ 3 ∧
    (∀ m ∈ scenario4OldResponse, m ∈ scenario4Store) ∧
    (retrieve_user_context scenario4OldResponse).map (·.relevance_score)
      = [1/10, 1/10, 1/10] ∧
    (retrieve_user_context scenario4OldResponse).map (·.conversation_id)
      = ["c9", "c20", "c40"] ∧
    "c0" ∉ (retrieve_user_context scenario4OldResponse).map (·.conversation_id) ∧
    ((1 : ℚ)/10 ≠ 1) ∧ ((1 : ℚ)/10 ≠ 9/10) ∧ ((1 : ℚ)/10 ≠ 2/10) := by
  have hev : retrieve_user_context scenario4OldResponse =
      [mkContextEntry matchNineDays, mkContextEntry matchTwentyDays,
        mkContextEntry matchFortyDays] := by
    norm_num [retrieve_user_context, scenario4OldResponse, sortByScoreDesc,
      insertDesc, mkContextEntry, matchScore, matchNineDays, matchTwentyDays,
      matchFortyDays, recencyScore_nine, recencyScore_twenty, recencyScore_forty]
  refine ⟨by decide, by decide, ?_, ?_, ?_, by norm_num, by norm_num, by norm_num⟩
  · rw [hev]
    norm_num [mkContextEntry, matchScore, matchNineDays, matchTwentyDays,
      matchFortyDays, recencyScore_nine, recencyScore_twenty, recencyScore_forty]
  · rw [hev]
    norm_num [mkContextEntry, matchNineDays, matchTwentyDays, matchFortyDays]
  · rw [hev]
    simp [mkContextEntry, matchNineDays, matchTwentyDays, matchFortyDays]

/-- Claim C6 (amended): `retrieve_user_context` with `top_k = 3` returns
the at-most-3 filter matches the vector store selected (not necessarily
the most recent ones), sorted descending by recency score; when the
store happens to return the entries aged today, 1 day and 9 days, the
scores are exactly 1.0, 0.9 and 0.1 — the 9-day entry sits on the 0.1
floor, not at 0.2. -/
theorem retrieve_scenario4_amended :
    scenario4RecentResponse.length ≤ 3 ∧
    (∀ m ∈ scenario4RecentResponse, m ∈ scenario4Store) ∧
    (retrieve_user_context scenario4RecentResponse).map (·.relevance_score)
      = [1, 9/10, 1/10] ∧
    (retrieve_user_context scenario4RecentResponse).map (·.conversation_id)
      = ["c0", "c1", "c9"] := by
  have hev : retrieve_user_context scenario4RecentResponse =
      [mkContextEntry matchToday, mkContextEntry matchOneDay,
        mkContextEntry matchNineDays] := by
    norm_num [retrieve_user_context, scenario4RecentResponse, sortByScoreDesc,
      insertDesc, mkContextEntry, matchScore, matchToday, matchOneDay,
      matchNineDays, recencyScore_zero, recencyScore_one, recencyScore_nine]
  refine ⟨by decide, by decide, ?_, ?_⟩
  · rw [hev]
    norm_num [mkContextEntry, matchScore, matchToday, matchOneDay, matchNineDays,
      recencyScore_zero, recencyScore_one, recencyScore_nine]
  · rw [hev]
    norm_num [mkContextEntry, matchToday, matchOneDay, matchNineDays]

/-- Claim C10: in filter-only retrieval a match with a missing or
unparseable timestamp scores the fixed default 0.5, and in the sorted
output it is placed before every entry strictly older than 5 days
(score < 0.5) and after every entry strictly newer than 5 days
(score > 0.5). -/
theorem default_score_ranking (ms : List PineconeMatch) : RankingSpec ms := by
  have hchars := retrieve_entry_chars ms
  have hsorted : (retrieve_user_context ms).Pairwise
      (fun a b => b.relevance_score ≤ a.relevance_score) :=
    sortByScoreDesc_pairwise (ms.map mkContextEntry)
  have hmem : ∀ (i : Nat) (e : ContextEntry),
      (retrieve_user_context ms)[i]? = some e → e ∈ retrieve_user_context ms := by
    intro i e hi
    obtain ⟨hb, he⟩ := List.getElem?_eq_some.mp hi
    exact he ▸ List.getElem_mem hb
  have hnone : ∀ (e : ContextEntry), e ∈ retrieve_user_context ms →
      e.daysAgo = none → e.relevance_score = 1/2 := by
    intro e he hn
    have h := hchars e he
    rw [hn] at h
    simpa using h
  have hsome : ∀ (e : ContextEntry) (d : Int), e ∈ retrieve_user_context ms →
      e.daysAgo = some d → e.relevance_score = recencyScore d := by
    intro e d he hd
    have h := hchars e he
    rw [hd] at h
    simpa using h
  unfold RankingSpec
  refine ⟨hnone, ?_, ?_⟩
  · intro i j ei ej d hi hj hin hjd h5
    refine sorted_score_index_lt _ hsorted i j ei ej hi hj ?_
    rw [hnone ei (hmem i ei hi) hin, hsome ej d (hmem j ej hj) hjd]
    exact recencyScore_lt_half d h5
  · intro i j ei ej d hi hj hin hjd h5
    refine sorted_score_index_lt _ hsorted j i ej ei hj hi ?_
    rw [hnone ei (hmem i ei hi) hin, hsome ej d (hmem j ej hj) hjd]
    exact half_lt_recencyScore d h5

/-- Claim C10 witness: a store with one timestampless and one 9-day-old
entry; the timestampless entry scores 0.5 and ranks first. -/
theorem default_score_ranking_witness :
    (retrieve_user_context [matchNoTimestamp, matchNineDays])[0]?
        = some (mkContextEntry matchNoTimestamp) ∧
    (retrieve_user_context [matchNoTimestamp, matchNineDays])[1]?
        = some (mkContextEntry matchNineDays) ∧
    (mkContextEntry matchNoTimestamp).daysAgo = none ∧
    (mkContextEntry matchNineDays).daysAgo = some 9 ∧
    ((5 : Int) < 9) ∧ ((0 : Nat) < 1) := by
  have hev : retrieve_user_context [matchNoTimestamp, matchNineDays]
      = [mkContextEntry matchNoTimestamp, mkContextEntry matchNineDays] := by
    norm_num [retrieve_user_context, sortByScoreDesc, insertDesc, mkContextEntry,
      matchScore, matchNoTimestamp, matchNineDays, recencyScore_nine]
  refine ⟨by rw [hev]; rfl, by rw [hev]; rfl, rfl, rfl, by norm_num, ?_⟩
  exact (default_score_ranking [matchNoTimestamp, matchNineDays]).2.1 0 1
    (mkContextEntry matchNoTimestamp) (mkContextEntry matchNineDays) 9
    (by rw [hev]; rfl) (by rw [hev]; rfl) rfl rfl (by norm_num)

/-- Claim C7: when the current state's message list ends with the user's
latest message and retrieval produced at least one entry with a
non-empty summary, `_retrieve_relevant_context` inserts exactly one
synthetic system message, summarising at most the first three summary
lines, immediately before that latest user message — never after it. -/
theorem context_injected_before_latest_user
    (st : AgentState) (results : List ContextEntry)
    (init : List Msg) (lastMsg : Msg) (u : Int)
    (hmsgs : st.messages = init ++ [lastMsg])
    (hrole : lastMsg.role = Role.user)
    (hcont : lastMsg.content ≠ "")
    (huid : st.user_id = some u)
    (hsum : ∃ e ∈ results, e.summary ≠ "") :
    InjectionSpec st results init lastMsg := by
  obtain ⟨e0, he0, hs0⟩ := hsum
  have hres : results ≠ [] := List.ne_nil_of_mem he0
  have hfl : st.messages.filter (fun m => decide (m.role = Role.user))
      = init.filter (fun m => decide (m.role = Role.user)) ++ [lastMsg] := by
    rw [hmsgs, List.filter_append]
    simp [hrole]
  have hhne : st.messages.filter (fun m => decide (m.role = Role.user)) ≠ [] := by
    rw [hfl]
    simp
  have hlast : ∀ hne, (st.messages.filter
      (fun m => decide (m.role = Role.user))).getLast hne = lastMsg := by
    intro hne
    rw [List.getLast_congr _ _ hfl, List.getLast_concat]
  have hcs : (results.filter (fun e => e.summary ≠ "")).map formatCtxLine ≠ [] := by
    refine List.ne_nil_of_mem (l := _) (a := formatCtxLine e0) ?_
    exact List.mem_map_of_mem _ (List.mem_filter.mpr ⟨he0, by simpa using hs0⟩)
  have hlen1 : 1 ≤ st.messages.length := by
    rw [hmsgs]
    simp
  have heval : retrieve_relevant_context st results =
      { st with messages := pyInsertBeforeLast (injectedMsg results) st.messages } := by
    unfold retrieve_relevant_context injectedMsg
    rw [dif_neg hhne]
    simp only []
    rw [hlast, huid]
    simp only []
    rw [if_neg (show ¬(lastMsg.content = "") from hcont), if_neg hres,
      if_neg hcs, if_pos hlen1]
  unfold InjectionSpec
  rw [heval]
  constructor
  · show pyInsertBeforeLast _ st.messages = _
    rw [hmsgs, pyInsertBeforeLast_append]
  · show (pyInsertBeforeLast _ st.messages).length = st.messages.length + 1
    rw [hmsgs, pyInsertBeforeLast_append]
    simp

/-- Claim C7 witness: an assistant greeting followed by the user's
question, with one retrieved entry carrying a non-empty summary. -/
theorem context_injected_before_latest_user_witness :
    injectWitnessState.messages =
        [{ role := Role.assistant, content := "Hello! How can I help?"
           tool_calls := [] }] ++
        [{ role := Role.user, content := "My monstera has yellow leaves"
           tool_calls := [] }] ∧
    injectWitnessState.user_id = some 7 ∧
    (∃ e ∈ [entryMonstera], e.summary ≠ "") ∧
    InjectionSpec injectWitnessState [entryMonstera]
      [{ role := Role.assistant, content := "Hello! How can I help?"
         tool_calls := [] }]
      { role := Role.user, content := "My monstera has yellow leaves"
        tool_calls := [] } :=
  ⟨rfl, rfl, by decide,
    context_injected_before_latest_user injectWitnessState [entryMonstera] _ _ 7
      rfl rfl (by decide) rfl (by decide)⟩

/-- Claim C9: on a context load without a pre-supplied profile (and with
the int user id and non-empty latest user message the aggregation path
demands), the derived profile is rebuilt by folding the retrieved
entries' values into the default profile: every plant a retrieved entry
carries ends up in `plants_discussed`, and whenever any entry carries a
truthy `experience_level` / `preferences` / `common_issues` value the
profile's field equals a carried value rather than the default. -/
theorem load_context_reflects_entry_values
    (st : AgentState) (ctxs : List LoadCtxEntry) (σ : List String)
    (u : Int) (lm : Msg)
    (hpre : st.user_context = none)
    (huid : st.user_id = some u)
    (hlast : (st.messages.filter
        (fun m => decide (m.role = Role.user))).getLast? = some lm)
    (hlc : lm.content ≠ "")
    (hctx : ctxs ≠ [])
    (hσ : SetOrder σ (ctxs.flatMap (·.plants_discussed))) :
    LoadReflectSpec st ctxs σ := by
  have heval : (load_user_context st ctxs σ).user_context
      = some { (ctxs.foldl applyCtx
          { user_id := some u : UserProfile }) with plants_discussed := σ } := by
    unfold load_user_context
    rw [hpre]
    simp only []
    rw [hlast]
    simp only []
    rw [huid]
    simp only []
    rw [if_pos hlc, if_pos hctx]
  unfold LoadReflectSpec
  refine ⟨_, heval, ?_, ?_, ?_, ?_⟩
  · intro c hc pl hpl
    show pl ∈ σ
    exact hσ.2.2 pl (List.mem_flatMap.mpr ⟨c, hc, hpl⟩)
  · intro hex
    obtain ⟨v, hv⟩ := lastTruthy_isSome (·.experience_level) ctxs hex
    obtain ⟨c', hc', ht', hfc⟩ := lastTruthy_mem _ _ _ hv
    refine ⟨c', hc', ht', ?_⟩
    have hproj := foldl_applyCtx_scalar (·.experience_level) (·.experience_level)
      applyCtx_experience ctxs { user_id := some u }
    rw [hv] at hproj
    rw [hfc]
    exact congrArg some hproj.symm
  · intro hex
    obtain ⟨v, hv⟩ := lastTruthy_isSome (·.preferences) ctxs hex
    obtain ⟨c', hc', ht', hfc⟩ := lastTruthy_mem _ _ _ hv
    refine ⟨c', hc', ht', ?_⟩
    have hproj := foldl_applyCtx_scalar (·.preferences) (·.preferences)
      applyCtx_preferences ctxs { user_id := some u }
    rw [hv] at hproj
    rw [hfc]
    exact congrArg some hproj.symm
  · intro hex
    obtain ⟨v, hv⟩ := lastTruthy_isSome (·.common_issues) ctxs hex
    obtain ⟨c', hc', ht', hfc⟩ := lastTruthy_mem _ _ _ hv
    refine ⟨c', hc', ht', ?_⟩
    have hproj := foldl_applyCtx_scalar (·.common_issues) (·.common_issues)
      applyCtx_common_issues ctxs { user_id := some u }
    rw [hv] at hproj
    rw [hfc]
    exact congrArg some hproj.symm

/-- Claim C9 witness: two retrieved entries carrying plants, an
experience level, preferences and a common issue. -/
theorem load_context_reflects_entry_values_witness :
    loadWitnessState.user_context = none ∧
    loadWitnessState.user_id = some 7 ∧
    (loadWitnessState.messages.filter
        (fun m => decide (m.role = Role.user))).getLast? =
      some { role := Role.user, content := "How is my monstera?"
             tool_calls := [] } ∧
    ([ctxExpert, ctxIssues] ≠ ([] : List LoadCtxEntry)) ∧
    SetOrder ["Monstera", "Pothos"]
      ([ctxExpert, ctxIssues].flatMap (·.plants_discussed)) ∧
    LoadReflectSpec loadWitnessState [ctxExpert, ctxIssues]
      ["Monstera", "Pothos"] :=
  ⟨rfl, rfl, by decide, by decide, by decide,
    load_context_reflects_entry_values loadWitnessState [ctxExpert, ctxIssues]
      ["Monstera", "Pothos"] 7 ⟨Role.user, "How is my monstera?", []⟩ rfl rfl
      (by decide) (by decide) (by decide) (by decide)⟩

/-- Claim C8 counterexample: the tools read image data from the shared
module-level `_current_state` cell, so with two interleaved
conversations (A's chat node sets the cell, then B's chat node
overwrites it, then A's image tool runs) the tool invoked on behalf of
conversation "A" consumes conversation B's image — not the image of the
state that invoked it. The two conversations thus do share mutable
state. -/
theorem image_tool_cross_conversation_read :
    traceToolReads none
        [ToolEvent.setState convStateA, ToolEvent.setState convStateB,
          ToolEvent.imageToolRun "A"]
      = [("A", some "imageB")] ∧
    convStateA.conversation_id = some "A" ∧
    convStateA.image_data = some "imageA" ∧
    convStateB.conversation_id = some "B" ∧
    convStateB.image_data = some "imageB" ∧
    (some "imageB" ≠ some "imageA") :=
  ⟨rfl, rfl, rfl, rfl, rfl, by decide⟩

/-- Claim C8 (amended): `diagnose_plant_from_image` consumes the
`image_data` of whichever conversation state was most recently written
to the process-wide `_current_state` cell — regardless of which
conversation the tool runs for. -/
theorem image_tool_reads_last_set_state :
    ∀ (events : List ToolEvent) (g : Option AgentState) (s : AgentState)
      (c : String),
      traceToolReads g
          (events ++ [ToolEvent.setState s, ToolEvent.imageToolRun c])
        = traceToolReads g events ++ [(c, s.image_data)] := by
  intro events
  induction events with
  | nil => intro g s c; rfl
  | cons ev rest ih =>
    intro g s c
    cases ev with
    | setState s' => simpa [traceToolReads] using ih (some s') s c
    | imageToolRun c' => simp [traceToolReads, ih g s c]

end PlantAssistant
